import Mathlib

/-!
Verification development for the capa rule compiler (`capa/rules.py`).

The Python source is shallowly embedded: yaml documents, features,
statement trees and rules become inductive types; every fallible source
routine becomes a function into `Except Err`.  The external collaborators
`capa.engine` and `capa.features` are not part of the given source tree;
the node accessors (`get_children` / `replace_child`), the topological
ordering collaborator, and the maximum byte-feature size are modelled from
the specification and are marked as such in their doc comments.
-/

/-- Errors raised by the rule compiler.  `invalidRule` embeds the source's
`InvalidRule` (rule-definition error), `invalidRuleSet` embeds
`InvalidRuleSet` (ruleset-integrity error), and `pyError` stands for an
exception raised by the Python runtime itself (TypeError, ValueError,
KeyError, AttributeError) escaping from code that does not catch it. -/
inductive Err where
  | invalidRule (msg : String)
  | invalidRuleSet (msg : String)
  | pyError (msg : String)
deriving DecidableEq, Repr

/-- A scalar metadata value of a rule's `meta` mapping.  The source treats
metadata values as arbitrary yaml scalars; the claims only ever distinguish
string values (inspected by `filter_rules_by_meta`) from non-string values,
so booleans stand for the non-string scalars (`lib: true` etc.). -/
inductive MetaVal where
  | str (s : String)
  | bool (b : Bool)
deriving DecidableEq, Repr

/-- Python truthiness of a metadata value, as used by
`rule.meta.get('lib', False)`: a string is truthy iff non-empty. -/
def pyTruthy : MetaVal → Bool
  | .str s => s ≠ ""
  | .bool b => b

/-- Modelled from the spec: the atomic feature kinds of `capa.features`,
`capa.features.file`, `capa.features.insn` and `capa.features.basicblock`
(spec §3), whose defining modules are not under src/.  Each carries its
kind-specific value and, for number/offset/bytes, the optional symbol
description produced by `parse_symbol`. -/
inductive Feature where
  | api (v : String)
  | stringF (v : String)
  | bytesF (v : List Nat) (symbol : Option String)
  | number (v : Int) (symbol : Option String)
  | offset (v : Int) (symbol : Option String)
  | mnemonic (v : String)
  | basicBlock
  | characteristic (name : String) (value : Bool)
  | exportF (v : String)
  | importF (v : String)
  | sectionF (v : String)
  | matchedRule (rule_name : String)
deriving DecidableEq, Repr

/-- The feature kind selected by `parse_feature` (a constructor, before it
is applied to a value). -/
inductive FeatureKind where
  | apiK
  | stringK
  | bytesK
  | numberK
  | offsetK
  | mnemonicK
  | basicBlocksK
  | characteristicK (name : String)
  | exportK
  | importK
  | sectionK
  | matchK
deriving DecidableEq, Repr

/-- Modelled from the spec: the tagged statement-node types of
`capa.engine` (spec §3 and §6), whose defining module is not under src/.
`and` / `or` / `someN` hold child lists, `not` and `subscope` hold a single
child, `range` holds a feature with optional inclusive bounds, and plain
features are wrapped as leaves.  `get_children` enumerates the child
list (or the single child) and `replace_child` swaps one child in place;
both are modelled directly by the structural recursion of the functions
below. -/
inductive Stmt where
  | and (children : List Stmt)
  | or (children : List Stmt)
  | someN (count : Int) (children : List Stmt)
  | not (child : Stmt)
  | range (f : Feature) (min max : Option Int)
  | regex (pattern : String)
  | subscope (scope : String) (child : Stmt)
  | feature (f : Feature)

mutual

/-- A parsed yaml mapping node: an ordered list of key/value entries. -/
inductive DNode where
  | mk (entries : List (String × DVal))

/-- A parsed yaml value: scalar (int, string, bool) or a sequence of
mapping nodes. -/
inductive DVal where
  | int (n : Int)
  | str (s : String)
  | bool (b : Bool)
  | seq (children : List DNode)

end

/-- A compiled rule: `capa.rules.Rule` (name, scope, statement tree,
metadata mapping, original textual definition). -/
structure Rule where
  name : String
  scope : String
  statement : Stmt
  meta : List (String × MetaVal)
  definition : String := ""

/-- The input document shape of `Rule.from_dict`: the `meta` mapping and
the `features` sequence found under the `rule` key. -/
structure RuleDoc where
  meta : List (String × MetaVal)
  features : List DNode

/- ----------------------------------------------------------------- -/
/- String helpers mirroring the Python string primitives used by the
   source.  All operate on `List Char` so that concrete proofs reduce. -/
/- ----------------------------------------------------------------- -/

/-- Python `str.strip` whitespace set. -/
def pySpace (c : Char) : Bool :=
  c = ' ' || c = '\t' || c = '\n' || c = '\r' || c = '\x0b' || c = '\x0c'

/-- `cs` with leading and trailing Python whitespace removed. -/
def pyStripList (cs : List Char) : List Char :=
  ((cs.dropWhile pySpace).reverse.dropWhile pySpace).reverse

/-- Python `s.strip()`. -/
def pyStrip (s : String) : String := String.mk (pyStripList s.toList)

/-- Python `s.startswith(p)`. -/
def pyStartsWith (s p : String) : Bool := p.toList.isPrefixOf s.toList

/-- Python `s.endswith(p)`. -/
def pyEndsWith (s p : String) : Bool := p.toList.isSuffixOf s.toList

/-- Python slice `s[front:-back]` for the uses in the source (`back` > 0),
and `s[front:]` when `back = 0`. -/
def pySlice (s : String) (front back : Nat) : String :=
  let cs := s.toList.drop front
  String.mk (cs.take (cs.length - back))

/-- Python `s.partition(sep)` restricted to the two text pieces: the part
before the first `sep` and the part after it (`after` is empty when `sep`
does not occur, matching `min, _, max = s.partition(',')`). -/
def pyPartitionList (sep : Char) : List Char → List Char × List Char
  | [] => ([], [])
  | c :: rest =>
    if c = sep then ([], rest)
    else
      let (b, a) := pyPartitionList sep rest
      (c :: b, a)

/-- String version of `pyPartitionList`. -/
def pyPartition (s : String) (sep : Char) : String × String :=
  let (b, a) := pyPartitionList sep s.toList
  (String.mk b, String.mk a)

/-- Python `s.replace(' ', '')`. -/
def pyReplaceSpaces (s : String) : String :=
  String.mk (s.toList.filter (fun c => c ≠ ' '))

/-- Python `needle in hay` substring containment. -/
def strContains (hay needle : String) : Bool :=
  (List.range (hay.toList.length + 1)).any
    (fun i => needle.toList.isPrefixOf (hay.toList.drop i))

/-- Decimal digit value of a character. -/
def digitVal (c : Char) : Option Nat :=
  if '0' ≤ c ∧ c ≤ '9' then some (c.toNat - '0'.toNat) else none

/-- Hexadecimal digit value of a character (both cases). -/
def hexDigitVal (c : Char) : Option Nat :=
  if '0' ≤ c ∧ c ≤ '9' then some (c.toNat - '0'.toNat)
  else if 'a' ≤ c ∧ c ≤ 'f' then some (c.toNat - 'a'.toNat + 10)
  else if 'A' ≤ c ∧ c ≤ 'F' then some (c.toNat - 'A'.toNat + 10)
  else none

/-- Digit string in the given base (10 or 16); `none` when empty or when a
character is not a digit of the base. -/
def parseDigits (base : Nat) : List Char → Option Nat
  | [] => none
  | cs => go cs 0
where
  go : List Char → Nat → Option Nat
    | [], acc => some acc
    | c :: rest, acc =>
      match (if base = 16 then hexDigitVal c else digitVal c) with
      | some d => go rest (acc * base + d)
      | none => none

/-- Models Python `int(s, base)` for bases 10 and 16 as used by the
source: surrounding whitespace is tolerated, an optional sign is allowed,
and for base 16 an optional `0x`/`0X` prefix is allowed.  Returns `none`
where Python raises `ValueError`.  (Underscore digit separators are not
modelled; no rule literal in the claims uses them.) -/
def pyInt (s : String) (base : Nat) : Option Int :=
  let cs := pyStripList s.toList
  match cs with
  | '+' :: rest => (pyIntBody base rest).map Int.ofNat
  | '-' :: rest => (pyIntBody base rest).map (fun n => -(n : Int))
  | rest => (pyIntBody base rest).map Int.ofNat
where
  pyIntBody (base : Nat) (cs : List Char) : Option Nat :=
    if base = 16 then
      match cs with
      | '0' :: 'x' :: rest => parseDigits 16 rest
      | '0' :: 'X' :: rest => parseDigits 16 rest
      | rest => parseDigits 16 rest
    else parseDigits base cs

/-- `parse_int` (rules.py:122): hexadecimal when the raw string starts
with `0x`, decimal otherwise.  `none` models the uncaught `ValueError`. -/
def parse_int (s : String) : Option Int :=
  if pyStartsWith s "0x" then pyInt s 16 else pyInt s 10

/-- `parse_range` (rules.py:129): parse `"(min,max)"` into inclusive
bounds, either side optionally empty (unbounded).  A bound that is present
must be non-negative, and when both are present `max` must not be below
`min`.  A non-numeric present bound makes Python's `int` raise an uncaught
`ValueError`, modelled by `pyError`. -/
def parse_range (s : String) : Except Err (Option Int × Option Int) :=
  if pyStartsWith s "(" = false then .error (.invalidRule ("invalid range: " ++ s))
  else if pyEndsWith s ")" = false then .error (.invalidRule ("invalid range: " ++ s))
  else
    let inner := pySlice s 1 1
    let (minRaw, maxRaw) := pyPartition inner ','
    let minS := pyStrip minRaw
    let maxS := pyStrip maxRaw
    match (if minS ≠ "" then
             match parse_int minS with
             | none => .error (.pyError "ValueError: invalid int literal")
             | some v =>
               if v < 0 then .error (.invalidRule "range min less than zero")
               else .ok (some v)
           else (.ok none : Except Err (Option Int))) with
    | .error e => .error e
    | .ok minV =>
      match (if maxS ≠ "" then
               match parse_int maxS with
               | none => .error (.pyError "ValueError: invalid int literal")
               | some v =>
                 if v < 0 then .error (.invalidRule "range max less than zero")
                 else .ok (some v)
             else (.ok none : Except Err (Option Int))) with
      | .error e => .error e
      | .ok maxV =>
        match minV, maxV with
        | some mn, some mx =>
          if mx < mn then .error (.invalidRule "range max less than min")
          else .ok (some mn, some mx)
        | _, _ => .ok (minV, maxV)

/-- Modelled from the spec: `MAX_BYTES_FEATURE_SIZE` is imported from
`capa.features`, which is not under src/; the spec only requires a fixed
maximum byte-feature size, taken here as 0x100. -/
def MAX_BYTES_FEATURE_SIZE : Nat := 256

/-- Hex-decode a character list into bytes: `none` on odd length or a
non-hex character, modelling `binascii.Error` from `codecs.decode(-,
'hex')`. -/
def hexDecode : List Char → Option (List Nat)
  | [] => some []
  | [_] => none
  | a :: b :: rest =>
    match hexDigitVal a, hexDigitVal b with
    | some x, some y => (hexDecode rest).map (fun bs => (x * 16 + y) :: bs)
    | _, _ => none

/-- The input of `parse_symbol`: "s can be an int or a string". -/
inductive SymVal where
  | int (n : Int)
  | str (s : String)
deriving DecidableEq, Repr

/-- The literal value produced by `parse_symbol`: an integer, or a decoded
byte sequence for kind `bytes`. -/
inductive PVal where
  | int (n : Int)
  | bytes (bs : List Nat)
deriving DecidableEq, Repr

/-- The conversion of the literal part of a symbol value
(rules.py:211-228): hex-decode (spaces removed, bounded size) for kind
`bytes`, `parse_int` otherwise. -/
def parseSymbolValue (valueStr : String) (symbol : Option String)
    (value_type : String) : Except Err (PVal × Option String) :=
  if value_type = "bytes" then
    match hexDecode (pyReplaceSpaces valueStr).toList with
    | none =>
      .error (.invalidRule
        ("unexpected bytes value: \"" ++ valueStr ++ "\", must be a valid hex sequence"))
    | some bs =>
      if bs.length > MAX_BYTES_FEATURE_SIZE then
        .error (.invalidRule
          ("unexpected bytes value: byte sequences must be no larger than "
            ++ toString MAX_BYTES_FEATURE_SIZE ++ " bytes"))
      else .ok (.bytes bs, symbol)
  else
    match parse_int valueStr with
    | none =>
      .error (.invalidRule
        ("unexpected value: \"" ++ valueStr ++ "\", must begin with numerical value"))
    | some v => .ok (.int v, symbol)

/-- `parse_symbol` (rules.py:198): split `"<literal> = <symbol>"` at the
first `=`; the symbol must be non-empty after stripping; then convert the
literal according to `value_type`.  An integer input is returned as-is
with no symbol. -/
def parse_symbol (s : SymVal) (value_type : String) : Except Err (PVal × Option String) :=
  match s with
  | .int n => .ok (.int n, none)
  | .str s0 =>
    if s0.toList.contains '=' then
      let (valueStr, rest) := pyPartition s0 '='
      let symbol := pyStrip rest
      if symbol = "" then
        .error (.invalidRule
          ("unexpected value: \"" ++ s0 ++ "\", symbol name cannot be empty"))
      else parseSymbolValue valueStr (some symbol) value_type
    else parseSymbolValue s0 none value_type

/- ----------------------------------------------------------------- -/
/- Feature vocabulary and the statement builder.                      -/
/- ----------------------------------------------------------------- -/

/-- The characteristic names of `SUPPORTED_FEATURES` (rules.py:28-76) for
each scope. -/
def supportedCharacteristics (scope : String) : List String :=
  if scope = "file" then ["embedded pe"]
  else if scope = "function" then
    ["switch", "nzxor", "peb access", "fs access", "gs access",
     "cross section flow", "stack string", "calls from", "calls to",
     "indirect call", "loop", "recursive call"]
  else if scope = "basic block" then
    ["nzxor", "peb access", "fs access", "gs access", "cross section flow",
     "tight loop", "stack string", "indirect call"]
  else []

/-- Membership of a non-characteristic feature's kind in the scope's set
of feature classes (rules.py:28-76, the `isinstance` test of
`ensure_feature_valid_for_scope`). -/
def featureKindSupported (scope : String) (f : Feature) : Bool :=
  match f with
  | .matchedRule _ => scope = "file" || scope = "function" || scope = "basic block"
  | .stringF _ => scope = "file" || scope = "function" || scope = "basic block"
  | .exportF _ => scope = "file"
  | .importF _ => scope = "file"
  | .sectionF _ => scope = "file"
  | .api _ => scope = "function" || scope = "basic block"
  | .number _ _ => scope = "function" || scope = "basic block"
  | .bytesF _ _ => scope = "function" || scope = "basic block"
  | .offset _ _ => scope = "function" || scope = "basic block"
  | .mnemonic _ => scope = "function" || scope = "basic block"
  | .basicBlock => scope = "function"
  | .characteristic _ _ => false

/-- `ensure_feature_valid_for_scope` (rules.py:114): a characteristic is
valid iff its name is in the scope's characteristic set; any other feature
is valid iff its kind is in the scope's class set.  (The source's error
message renders the feature via the external `capa.features` classes,
which are not under src/; only the scope part of the message is kept.) -/
def ensure_feature_valid_for_scope (scope : String) (f : Feature) : Except Err Unit :=
  match f with
  | .characteristic name _ =>
    if (supportedCharacteristics scope).contains name then .ok ()
    else .error (.invalidRule ("feature not support for scope " ++ scope))
  | _ =>
    if featureKindSupported scope f then .ok ()
    else .error (.invalidRule ("feature not support for scope " ++ scope))

/-- `parse_feature` (rules.py:167): map a statement key to a feature
constructor.  `characteristic(<name>)` keys embed the characteristic name. -/
def parse_feature (key : String) : Except Err FeatureKind :=
  if key = "api" then .ok .apiK
  else if key = "string" then .ok .stringK
  else if key = "bytes" then .ok .bytesK
  else if key = "number" then .ok .numberK
  else if key = "offset" then .ok .offsetK
  else if key = "mnemonic" then .ok .mnemonicK
  else if key = "basic blocks" then .ok .basicBlocksK
  else if pyStartsWith key "characteristic(" && pyEndsWith key ")" then
    .ok (.characteristicK (pySlice key 15 1))
  else if key = "export" then .ok .exportK
  else if key = "import" then .ok .importK
  else if key = "section" then .ok .sectionK
  else if key = "match" then .ok .matchK
  else .error (.invalidRule ("unexpected statement: " ++ key))

/-- Apply a feature constructor to a single string argument, as in
`Feature(arg)` on the non-symbol path of the `count(...)` branch
(rules.py:318).  The numeric kinds do not take this path; constructing an
external class at the wrong arity would raise a Python `TypeError`. -/
def featureOfArg (k : FeatureKind) (arg : String) : Except Err Feature :=
  match k with
  | .apiK => .ok (.api arg)
  | .stringK => .ok (.stringF arg)
  | .mnemonicK => .ok (.mnemonic arg)
  | .exportK => .ok (.exportF arg)
  | .importK => .ok (.importF arg)
  | .sectionK => .ok (.sectionF arg)
  | .matchK => .ok (.matchedRule arg)
  | .basicBlocksK => .ok .basicBlock
  | _ => .error (.pyError "TypeError: unexpected constructor arity")

/-- Apply a feature constructor to no argument, as in `Feature()`
(rules.py:320, e.g. `count(basic blocks)`).  Only the basic-block marker
is a zero-state feature (spec §3); other external classes would raise a
Python `TypeError` at this arity. -/
def featureOfNoArg (k : FeatureKind) : Except Err Feature :=
  match k with
  | .basicBlocksK => .ok .basicBlock
  | _ => .error (.pyError "TypeError: unexpected constructor arity")

/-- Apply a numeric/offset/bytes feature constructor to the value and
symbol produced by `parse_symbol` (rules.py:310-311). -/
def featureOfSymbol (k : FeatureKind) (v : PVal) (sym : Option String) : Except Err Feature :=
  match k, v with
  | .numberK, .int n => .ok (.number n sym)
  | .offsetK, .int n => .ok (.offset n sym)
  | .bytesK, .bytes bs => .ok (.bytesF bs sym)
  | _, _ => .error (.pyError "TypeError: unexpected constructor argument")

/-- The term parsing and validation of the `count(<term>)` branch
(rules.py:278-321): a `characteristic(name)` term yields the boolean
characteristic with an implicit `True` value; otherwise the term is split
at the first `(` into a feature-kind name and an optional argument (whose
trailing character, the `)`, is dropped), the argument is parsed with the
symbol grammar for `number`/`offset`/`bytes` and taken as a raw string
otherwise; the resulting feature is validated against the scope. -/
def buildCountFeature (term : String) (scope : String) : Except Err Feature :=
  if pyStartsWith term "characteristic(" then
    match parse_feature term with
    | .error e => .error e
    | .ok (.characteristicK name) =>
      let f := Feature.characteristic name true
      match ensure_feature_valid_for_scope scope f with
      | .error e => .error e
      | .ok _ => .ok f
    | .ok _ => .error (.pyError "unreachable")
  else
    let (t2, arg) := pyPartition term '('
    match parse_feature t2 with
    | .error e => .error e
    | .ok k =>
      match (if arg ≠ "" then
               let argv := pySlice arg 0 1
               if t2 = "number" || t2 = "offset" || t2 = "bytes" then
                 match parse_symbol (.str argv) t2 with
                 | .error e => .error e
                 | .ok (v, sym) => featureOfSymbol k v sym
               else featureOfArg k argv
             else featureOfNoArg k) with
      | .error e => .error e
      | .ok f =>
        match ensure_feature_valid_for_scope scope f with
        | .error e => .error e
        | .ok _ => .ok f

/-- Convert a yaml scalar to the `parse_symbol` input (rules.py:348-351):
strings stay strings, integers stay integers; a yaml boolean is a Python
`int` subtype and converts to 1/0. -/
def symValOfDVal : DVal → Except Err SymVal
  | .str s => .ok (.str s)
  | .int n => .ok (.int n)
  | .bool b => .ok (.int (if b then 1 else 0))
  | .seq _ => .error (.pyError "TypeError: unhashable value")

/-- Build a feature leaf from a plain `key: value` entry (rules.py:346-356,
the final `else` of `build_statements`): numeric/offset/bytes values go
through the symbol grammar, other kinds are built from the raw string
value. -/
def featureOfKeyValue (k : FeatureKind) (key : String) (v : DVal) : Except Err Feature :=
  if key = "number" || key = "offset" || key = "bytes" then
    match symValOfDVal v with
    | .error e => .error e
    | .ok sv =>
      match parse_symbol sv key with
      | .error e => .error e
      | .ok (pv, sym) => featureOfSymbol k pv sym
  else
    match k, v with
    | .apiK, .str s => .ok (.api s)
    | .stringK, .str s => .ok (.stringF s)
    | .mnemonicK, .str s => .ok (.mnemonic s)
    | .exportK, .str s => .ok (.exportF s)
    | .importK, .str s => .ok (.importF s)
    | .sectionK, .str s => .ok (.sectionF s)
    | .matchK, .str s => .ok (.matchedRule s)
    | .characteristicK name, .bool b => .ok (.characteristic name b)
    | .basicBlocksK, _ => .ok .basicBlock
    | _, _ => .error (.pyError "TypeError: unexpected feature value")

/-- The generic feature-leaf branch of `build_statements`
(rules.py:346-356): look up the feature constructor for the key, build the
feature (through the symbol grammar for `number`/`offset`/`bytes`), and
validate it against the scope. -/
def buildFeatureLeaf (key : String) (v : DVal) (scope : String) : Except Err Stmt :=
  match parse_feature key with
  | .error e => .error e
  | .ok k =>
    match featureOfKeyValue k key v with
    | .error e => .error e
    | .ok f =>
      match ensure_feature_valid_for_scope scope f with
      | .error e => .error e
      | .ok _ => .ok (.feature f)

mutual

/-- `build_statements` (rules.py:231): compile one mapping node into a
statement.  The node must have exactly one key; the key is dispatched to
the boolean combinators, the quantified combinators, the subscope markers,
the `count(...)` bounded range, the regex-shaped string literal, or the
generic feature leaf, in the source's order. -/
def build_statements (d : DNode) (scope : String) : Except Err Stmt :=
  match d with
  | .mk [] => .error (.invalidRule "too many statements")
  | .mk (_ :: _ :: _) => .error (.invalidRule "too many statements")
  | .mk [(key, v)] =>
    if key = "and" then
      match v with
      | .seq children =>
        match build_statements_list children scope with
        | .error e => .error e
        | .ok cs => .ok (.and cs)
      | _ => .error (.pyError "TypeError: statement list expected")
    else if key = "or" then
      match v with
      | .seq children =>
        match build_statements_list children scope with
        | .error e => .error e
        | .ok cs => .ok (.or cs)
      | _ => .error (.pyError "TypeError: statement list expected")
    else if key = "not" then
      match v with
      | .seq children =>
        match children with
        | [c] =>
          match build_statements c scope with
          | .error e => .error e
          | .ok s => .ok (.not s)
        | _ => .error (.invalidRule "not statement must have exactly one child statement")
      | _ => .error (.pyError "TypeError: statement list expected")
    else if pyEndsWith key " or more" then
      match pyInt (pySlice key 0 7) 10 with
      | none => .error (.pyError "ValueError: invalid int literal")
      | some n =>
        match v with
        | .seq children =>
          match build_statements_list children scope with
          | .error e => .error e
          | .ok cs => .ok (.someN n cs)
        | _ => .error (.pyError "TypeError: statement list expected")
    else if key = "optional" then
      match v with
      | .seq children =>
        match build_statements_list children scope with
        | .error e => .error e
        | .ok cs => .ok (.someN 0 cs)
      | _ => .error (.pyError "TypeError: statement list expected")
    else if key = "function" then
      if scope ≠ "file" then
        .error (.invalidRule "function subscope supported only for file scope")
      else
        match v with
        | .seq children =>
          match children with
          | [c] =>
            match build_statements c "function" with
            | .error e => .error e
            | .ok s => .ok (.subscope "function" s)
          | _ => .error (.invalidRule "subscope must have exactly one child statement")
        | _ => .error (.pyError "TypeError: statement list expected")
    else if key = "basic block" then
      if scope ≠ "function" then
        .error (.invalidRule "basic block subscope supported only for function scope")
      else
        match v with
        | .seq children =>
          match children with
          | [c] =>
            match build_statements c "basic block" with
            | .error e => .error e
            | .ok s => .ok (.subscope "basic block" s)
          | _ => .error (.invalidRule "subscope must have exactly one child statement")
        | _ => .error (.pyError "TypeError: statement list expected")
    else if pyStartsWith key "count(" && pyEndsWith key ")" then
      match buildCountFeature (pySlice key 6 1) scope with
      | .error e => .error e
      | .ok f =>
        match v with
        | .int n => .ok (.range f (some n) (some n))
        | .bool b =>
          .ok (.range f (some (if b then 1 else 0)) (some (if b then 1 else 0)))
        | .seq _ => .error (.pyError "AttributeError: endswith on a list")
        | .str c =>
          if pyEndsWith c " or more" then
            match parse_int (pySlice c 0 8) with
            | none => .error (.pyError "ValueError: invalid int literal")
            | some mn => .ok (.range f (some mn) none)
          else if pyEndsWith c " or fewer" then
            match parse_int (pySlice c 0 9) with
            | none => .error (.pyError "ValueError: invalid int literal")
            | some mx => .ok (.range f none (some mx))
          else if pyStartsWith c "(" then
            match parse_range c with
            | .error e => .error e
            | .ok (mn, mx) => .ok (.range f mn mx)
          else .error (.invalidRule ("unexpected range: " ++ c))
    else if key = "string" then
      match v with
      | .str sv =>
        if pyStartsWith sv "/" && (pyEndsWith sv "/" || pyEndsWith sv "/i") then
          .ok (.regex sv)
        else buildFeatureLeaf key v scope
      | _ => .error (.pyError "AttributeError: startswith on a non-string")
    else buildFeatureLeaf key v scope

/-- Compile each node of a statement sequence in order, failing on the
first invalid node (the list comprehensions of rules.py:237-269). -/
def build_statements_list (l : List DNode) (scope : String) : Except Err (List Stmt) :=
  match l with
  | [] => .ok []
  | d :: rest =>
    match build_statements d scope with
    | .error e => .error e
    | .ok s =>
      match build_statements_list rest scope with
      | .error e => .error e
      | .ok ss => .ok (s :: ss)

end

/-- Python dict lookup on an association list (first matching key; yaml
mappings have unique keys). -/
def lookupMeta (m : List (String × MetaVal)) (k : String) : Option MetaVal :=
  (m.find? (fun kv => kv.1 == k)).map (fun kv => kv.2)

/-- The check of rules.py:483, `isinstance(statements[0],
capa.engine.Subscope)`: `statements[0]` is the raw parsed yaml mapping (a
Python dict), which is never an instance of the engine's `Subscope`
statement class, so the test is constantly false and the
"top level statement may not be a subscope" error is unreachable. -/
def docNodeIsEngineSubscopeInstance (_ : DNode) : Bool := false

/-- `Rule.from_dict` (rules.py:470): read the name from `meta.name`
(a missing name raises `KeyError`), the scope from `meta.scope` with
default `function`, require exactly one entry under `features`, run the
(dead, see `docNodeIsEngineSubscopeInstance`) top-level subscope check,
and compile the single statement.  `s` is the original textual
definition. -/
def from_dict (d : RuleDoc) (s : String) : Except Err Rule :=
  match lookupMeta d.meta "name" with
  | none => .error (.pyError "KeyError: name")
  | some (.bool _) => .error (.pyError "TypeError: rule name must be a string")
  | some (.str name) =>
    let scope :=
      match lookupMeta d.meta "scope" with
      | some (.str sc) => sc
      | _ => "function"
    match d.features with
    | [st] =>
      if docNodeIsEngineSubscopeInstance st then
        .error (.invalidRule "top level statement may not be a subscope")
      else
        match build_statements st scope with
        | .error e => .error e
        | .ok stmt =>
          .ok { name := name, scope := scope, statement := stmt, meta := d.meta, definition := s }
    | _ => .error (.invalidRule "rule must begin with a single top level statement")

/- ----------------------------------------------------------------- -/
/- Dependency discovery and subscope extraction.                      -/
/- ----------------------------------------------------------------- -/

mutual

/-- The recursion of `Rule.get_dependencies` (rules.py:382-405): collect
the referenced rule name of every `MatchedRule` leaf, recursing through
statement children (a `Range` node's child is its feature, so a counted
`match` reference also counts). -/
def depsOfStmt : Stmt → List String
  | .feature (.matchedRule n) => [n]
  | .feature _ => []
  | .and cs => depsOfStmtList cs
  | .or cs => depsOfStmtList cs
  | .someN _ cs => depsOfStmtList cs
  | .not ch => depsOfStmt ch
  | .subscope _ ch => depsOfStmt ch
  | .range (.matchedRule n) _ _ => [n]
  | .range _ _ _ => []
  | .regex _ => []

def depsOfStmtList : List Stmt → List String
  | [] => []
  | c :: cs => depsOfStmt c ++ depsOfStmtList cs

end

/-- `Rule.get_dependencies` of a rule (the source returns a set; the list
here may carry duplicates, and only membership is ever used). -/
def getDependencies (r : Rule) : List String := depsOfStmt r.statement

/-- Is the statement node a subscope marker? -/
def isSubscopeNode : Stmt → Bool
  | .subscope _ _ => true
  | _ => false

/-- View a statement as a subscope marker (scope and child), when it is
one. -/
def asSubscope : Stmt → Option (String × Stmt)
  | .subscope sc sub => some (sc, sub)
  | _ => none

mutual

/-- Does the tree contain a subscope marker anywhere (root included)? -/
def containsSubscope : Stmt → Bool
  | .and cs => containsSubscopeList cs
  | .or cs => containsSubscopeList cs
  | .someN _ cs => containsSubscopeList cs
  | .not ch => containsSubscope ch
  | .subscope _ _ => true
  | .range _ _ _ => false
  | .regex _ => false
  | .feature _ => false

def containsSubscopeList : List Stmt → Bool
  | [] => false
  | c :: cs => containsSubscope c || containsSubscopeList cs

end

/-- No subscope marker anywhere in the tree. -/
def subscopeFree (s : Stmt) : Bool := !containsSubscope s

/-- No subscope marker strictly below the root (the root itself may be a
subscope marker). -/
def noSubscopeBelowRoot : Stmt → Bool
  | .subscope _ ch => subscopeFree ch
  | s => subscopeFree s

/-- Modelled from the spec: the synthetic rule created for one extracted
subscope marker (rules.py:412-427).  The source suffixes the parent name
with a random `uuid4` hex string whose only required property is
uniqueness (spec §4.4 and §9, which explicitly sanctions a deterministic
counter); the model threads a counter and uses its decimal rendering as
the suffix.  The metadata is the source's literal dictionary:
name, scope, `lib: true`, the subscope marker and the parent link. -/
def mkSubscopeRule (parentName : String) (scope : String) (child : Stmt) (ctr : Nat) : Rule :=
  let name := parentName ++ "/" ++ toString ctr
  { name := name
    scope := scope
    statement := child
    meta := [("name", .str name), ("scope", .str scope), ("lib", .bool true),
             ("capa/subscope-rule", .bool true), ("capa/parent", .str parentName)]
    definition := "" }

/-- The number of subscope markers among a node's children: how many
synthetic rules the first pass over this child list creates (used to give
the second, recursive pass its starting counter). -/
def countSubscopes (cs : List Stmt) : Nat :=
  cs.countP (fun c => isSubscopeNode c = true)

mutual

/-- `Rule._extract_subscope_rules_rec` (rules.py:407-441) on one
statement node: every subscope found among the node's children is
replaced in place by a `match` leaf naming a fresh synthetic rule, and
the (updated) children are then recursed into.  The replaced subscope
subtrees are not recursed into (the source's note: they have been
replaced by a `match` statement).  Returns the rewritten node, the
synthetic rules in yield order, and the advanced name counter. -/
def extractStmt (pn : String) (ctr : Nat) : Stmt → Stmt × List Rule × Nat
  | .and cs =>
    let (cs2, rs1, rs2, c2) := extractWalk pn ctr (ctr + countSubscopes cs) cs
    (.and cs2, rs1 ++ rs2, c2)
  | .or cs =>
    let (cs2, rs1, rs2, c2) := extractWalk pn ctr (ctr + countSubscopes cs) cs
    (.or cs2, rs1 ++ rs2, c2)
  | .someN n cs =>
    let (cs2, rs1, rs2, c2) := extractWalk pn ctr (ctr + countSubscopes cs) cs
    (.someN n cs2, rs1 ++ rs2, c2)
  | .not ch =>
    match asSubscope ch with
    | some (sc, sub) =>
      let r := mkSubscopeRule pn sc sub ctr
      (.not (.feature (.matchedRule r.name)), [r], ctr + 1)
    | none =>
      let (ch2, rs, c2) := extractStmt pn ctr ch
      (.not ch2, rs, c2)
  | .subscope sc ch =>
    match asSubscope ch with
    | some (sc2, sub) =>
      let r := mkSubscopeRule pn sc2 sub ctr
      (.subscope sc (.feature (.matchedRule r.name)), [r], ctr + 1)
    | none =>
      let (ch2, rs, c2) := extractStmt pn ctr ch
      (.subscope sc ch2, rs, c2)
  | .range f mn mx => (.range f mn mx, [], ctr)
  | .regex p => (.regex p, [], ctr)
  | .feature f => (.feature f, [], ctr)

/-- The two iterations over a node's child list (rules.py:410 and 439) in
one walk carrying both passes' counters: `c1` numbers the subscope
replacements of the first pass, `c2` numbers the recursion of the second
pass (which starts after all of the first pass's counters, matching the
yield order of the source's generator: first the rules of the replaced
children, then the rules found by recursion).  Returns the updated
children, the first-pass rules, the second-pass rules, and the advanced
counter. -/
def extractWalk (pn : String) (c1 c2 : Nat) :
    List Stmt → List Stmt × List Rule × List Rule × Nat
  | [] => ([], [], [], c2)
  | c :: cs =>
    match asSubscope c with
    | some (sc, sub) =>
      let r := mkSubscopeRule pn sc sub c1
      let (cs2, rs1, rs2, cf) := extractWalk pn (c1 + 1) c2 cs
      (.feature (.matchedRule r.name) :: cs2, r :: rs1, rs2, cf)
    | none =>
      let (c2s, crs, c2n) := extractStmt pn c2 c
      let (cs2, rs1, rs2, cf) := extractWalk pn c1 c2n cs
      (c2s :: cs2, rs1, crs ++ rs2, cf)

end

/-- `Rule.extract_subscope_rules` (rules.py:443): run the extraction from
the rule's root statement (the root node itself is never replaced, only
children are), returning the rule with its rewritten tree, the synthetic
rules, and the advanced counter.  The source mutates `self.statement` in
place; the model returns the updated rule. -/
def extractRule (r : Rule) (ctr : Nat) : Rule × List Rule × Nat :=
  let (st, rs, c2) := extractStmt r.name ctr r.statement
  ({ r with statement := st }, rs, c2)

/-- The names of a rule collection, in order. -/
def ruleNames (rules : List Rule) : List String := rules.map (fun r => r.name)

/-- `ensure_rules_are_unique` (rules.py:599), with the already-seen name
set made explicit. -/
def ensureRulesAreUniqueGo (seen : List String) : List Rule → Except Err Unit
  | [] => .ok ()
  | r :: rest =>
    if seen.contains r.name then
      .error (.invalidRule ("duplicate rule name: " ++ r.name))
    else ensureRulesAreUniqueGo (r.name :: seen) rest

/-- `ensure_rules_are_unique` (rules.py:599): fail, with an `InvalidRule`
(not `InvalidRuleSet`) error, on the first repeated rule name. -/
def ensure_rules_are_unique (rules : List Rule) : Except Err Unit :=
  ensureRulesAreUniqueGo [] rules

/-- Python's `{rule.name: rule for rule in rules}` lookup: on duplicate
keys the last binding wins. -/
def lookupRule (rules : List Rule) (name : String) : Option Rule :=
  rules.reverse.find? (fun r => r.name == name)

/-- The `.values()` view of `{rule.name: rule for rule in rules}`: one
rule per name, names in first-occurrence order, values last-wins. -/
def pyDictValues (rules : List Rule) : List Rule :=
  ((ruleNames rules).eraseDups).filterMap (lookupRule rules)

/-- The per-rule scan of `ensure_rule_dependencies_are_met`
(rules.py:615-618): the first dependency of `r` that resolves to no name
in `names` produces the error. -/
def ensureDepsGo (names : List String) : List Rule → Except Err Unit
  | [] => .ok ()
  | r :: rest =>
    match (getDependencies r).find? (fun d => !(names.contains d)) with
    | some d =>
      .error (.invalidRule
        ("rule \"" ++ r.name ++ "\" depends on missing rule \"" ++ d ++ "\""))
    | none => ensureDepsGo names rest

/-- `ensure_rule_dependencies_are_met` (rules.py:607): every direct
dependency of every rule must resolve to a rule of the collection; the
error is an `InvalidRule` (not `InvalidRuleSet`). -/
def ensure_rule_dependencies_are_met (rules : List Rule) : Except Err Unit :=
  let vals := pyDictValues rules
  ensureDepsGo (ruleNames vals) vals

/-- The direct dependency names of the rule registered under `n`, or `[]`
when no such rule exists. -/
def depNamesOf (rules : List Rule) (n : String) : List String :=
  match lookupRule rules n with
  | some r => getDependencies r
  | none => []

/-- One expansion step of the `wanted` set of `get_rules_and_dependencies`
(rules.py:585-592). -/
def closureStep (rules : List Rule) (wanted : List String) : List String :=
  (wanted ++ wanted.foldr (fun n acc => depNamesOf rules n ++ acc) []).eraseDups

/-- The `wanted` name set of `get_rules_and_dependencies`: the source
computes it by unbounded recursive expansion of direct dependencies
(diverging on a dependency cycle, spec §9); the bounded iteration below
reaches the same fixpoint whenever the source terminates, since the
closure of a collection of `n` rules is reached within `n` steps. -/
def wantedClosure (rules : List Rule) (name : String) : List String :=
  (closureStep rules)^[rules.length] [name]

/-- `get_rules_and_dependencies` (rules.py:573): the rules of the
collection (one per name) whose name is in the transitive closure of
`name`'s dependencies, `name` itself included. -/
def get_rules_and_dependencies (rules : List Rule) (name : String) : List Rule :=
  (pyDictValues rules).filter (fun r => (wantedClosure rules name).contains r.name)

/-- `get_rules_with_scope` (rules.py:559). -/
def get_rules_with_scope (rules : List Rule) (scope : String) : List Rule :=
  rules.filter (fun r => r.scope == scope)

/-- Readiness of a rule in the Kahn-style layering of
`topologicallyOrderRules`: every dependency is already placed or is
outside the remaining collection. -/
def topoReady (placed remaining : List Rule) (r : Rule) : Bool :=
  (getDependencies r).all
    (fun d => (ruleNames placed).contains d || !((ruleNames remaining).contains d))

/-- The fuelled layering loop of `topologicallyOrderRules`. -/
def topoGo : Nat → List Rule → List Rule → List Rule
  | 0, placed, remaining => placed ++ remaining
  | fuel + 1, placed, remaining =>
    let ready := remaining.filter (topoReady placed remaining)
    if ready.isEmpty then placed ++ remaining
    else topoGo fuel (placed ++ ready) (remaining.filter (fun r => !(topoReady placed remaining r)))

/-- Modelled from the spec: `capa.engine.topologically_order_rules`
(spec §6), whose defining module is not under src/.  The spec requires an
ordering of the given rules in which no rule precedes a rule it
transitively references; this Kahn-style layering places dependency-free
rules first, and appends the remainder unchanged when no progress is
possible (a cycle, whose handling the spec leaves to the collaborator).
The claims below use only that the output is membership-equivalent to the
input. -/
def topologicallyOrderRules (rules : List Rule) : List Rule :=
  topoGo rules.length [] rules

/-- The `lib` metadata flag of a rule, with Python truthiness
(`rule.meta.get('lib', False)`, rules.py:671). -/
def isLibRule (r : Rule) : Bool :=
  match lookupMeta r.meta "lib" with
  | some v => pyTruthy v
  | none => false

/-- The `scope_rules` set of `RuleSet._get_rules_for_scope`
(rules.py:664-674): the union over every non-lib rule of its transitive
dependency closure.  The source accumulates a Python set; the list here
may carry duplicates, and only membership is ever used. -/
def scopeRulesUnion (rules : List Rule) : List Rule :=
  rules.foldr
    (fun r acc =>
      if isLibRule r then acc else get_rules_and_dependencies rules r.name ++ acc)
    []

/-- `RuleSet._get_rules_for_scope` (rules.py:656): topologically order the
union of the non-lib rules' closures, then keep the rules of the given
scope. -/
def getRulesForScope (rules : List Rule) (scope : String) : List Rule :=
  get_rules_with_scope (topologicallyOrderRules (scopeRulesUnion rules)) scope

/-- The worklist of `RuleSet._extract_subscope_rules` (rules.py:688-697):
pop the front rule, extract its subscope rules, push the synthetic rules
on the back, append the popped rule to `done`.  The fuel only bounds the
number of iterations (each iteration strictly reduces the combined count
of worklist subscope nodes and worklist length, so a large enough fuel
always exists); `none` means the fuel ran out. -/
def extractWorklist : Nat → List Rule → List Rule → Nat → Option (List Rule × Nat)
  | _, [], done, ctr => some (done, ctr)
  | 0, _ :: _, _, _ => none
  | fuel + 1, r :: rest, done, ctr =>
    let (r2, news, c2) := extractRule r ctr
    extractWorklist fuel (rest ++ news) (done ++ [r2]) c2

/-- The per-scope rule lists and the name index owned by a constructed
`RuleSet` (rules.py:648-651). -/
structure RuleSetData where
  file_rules : List Rule
  function_rules : List Rule
  basic_block_rules : List Rule
  rules : List (String × Rule)

/-- The observable outcome of `RuleSet.__init__` (rules.py:636), with the
caller-visible state made explicit: `callerList` is the content of the
list object the caller passed in (mutated by the worklist's `pop(0)`
draining), `done` is the processed rule collection (the caller's original
rule objects, their statement trees rewritten in place by extraction), and
`result` is the constructed data or the raised error. -/
structure InitOutcome where
  callerList : List Rule
  done : List Rule
  result : Except Err RuleSetData

/-- `RuleSet.__init__` (rules.py:636-651): verify uniqueness, drain the
caller's list through subscope extraction, verify dependencies over the
full collection, fail on an empty collection, and otherwise partition into
the per-scope ordered lists and the name index.  Every stage's error
aborts the construction, but the state mutated by earlier stages (modelled
in the returned `InitOutcome`) persists. -/
def ruleSetInit (fuel : Nat) (rules : List Rule) : Option InitOutcome :=
  match ensure_rules_are_unique rules with
  | .error e => some { callerList := rules, done := [], result := .error e }
  | .ok _ =>
    match extractWorklist fuel rules [] 0 with
    | none => none
    | some (done, _) =>
      match ensure_rule_dependencies_are_met done with
      | .error e => some { callerList := [], done := done, result := .error e }
      | .ok _ =>
        if done.length = 0 then
          some { callerList := [], done := done,
                 result := .error (.invalidRuleSet "no rules selected") }
        else
          some { callerList := [], done := done,
                 result := .ok
                   { file_rules := getRulesForScope done "file"
                     function_rules := getRulesForScope done "function"
                     basic_block_rules := getRulesForScope done "basic block"
                     rules := done.map (fun r => (r.name, r)) } }

/-- Does a rule's metadata have a string value containing the tag as a
substring (the match test of `filter_rules_by_meta`, rules.py:711-712)? -/
def ruleMetaMatchesTag (r : Rule) (tag : String) : Bool :=
  r.meta.any (fun kv =>
    match kv.2 with
    | .str v => strContains v tag
    | .bool _ => false)

/-- `RuleSet.filter_rules_by_meta` (rules.py:699): collect every rule with
a string metadata value containing the tag, together with its transitive
dependencies, and rebuild a `RuleSet` from the collection (re-running all
constructor checks).  The source accumulates a Python set; the list here
may carry duplicates, and the constructor re-checks membership-level
properties only. -/
def filterRulesByMeta (fuel : Nat) (rsRules : List Rule) (tag : String) : Option InitOutcome :=
  let filtered :=
    rsRules.foldr
      (fun r acc =>
        if ruleMetaMatchesTag r tag then get_rules_and_dependencies rsRules r.name ++ acc
        else acc)
      []
  ruleSetInit fuel filtered

/-- Is the result a success? -/
def isOkB {α : Type} : Except Err α → Bool
  | .ok _ => true
  | .error _ => false

/-- Is the result the ruleset-integrity error (`InvalidRuleSet`)? -/
def isIntegrityErrB {α : Type} : Except Err α → Bool
  | .error (.invalidRuleSet _) => true
  | _ => false

/-- Is the result the rule-definition error (`InvalidRule`)? -/
def isRuleErrB {α : Type} : Except Err α → Bool
  | .error (.invalidRule _) => true
  | _ => false

/- ----------------------------------------------------------------- -/
/- Concrete rule documents and rule collections used by the theorems. -/
/- ----------------------------------------------------------------- -/

/-- A rule document whose single `features` entry is the bare subscope
mapping `{function: [{mnemonic: mov}]}`, under file scope. -/
def subscopeTopDoc : RuleDoc :=
  { meta := [("name", .str "t"), ("scope", .str "file")],
    features := [DNode.mk [("function", .seq [DNode.mk [("mnemonic", .str "mov")]])]] }

/-- The rule that `from_dict` actually returns for `subscopeTopDoc`: its
top-level statement is the subscope marker itself. -/
def subscopeTopRule : Rule :=
  { name := "t", scope := "file",
    statement := .subscope "function" (.feature (.mnemonic "mov")),
    meta := [("name", .str "t"), ("scope", .str "file")], definition := "" }

/-- The same document with two `features` entries. -/
def subscopeTopDocTwo : RuleDoc :=
  { meta := [("name", .str "t"), ("scope", .str "file")],
    features := [DNode.mk [("function", .seq [DNode.mk [("mnemonic", .str "mov")]])],
                 DNode.mk [("mnemonic", .str "mov")]] }

/-- The same document with an empty `features` sequence. -/
def subscopeTopDocZero : RuleDoc :=
  { meta := [("name", .str "t"), ("scope", .str "file")], features := [] }

/-- The document of spec §8: a file-scope rule whose top-level statement
is `{and: [{function: [{basic block: [{mnemonic: mov}]}]}]}`. -/
def nestedSubDoc : RuleDoc :=
  { meta := [("name", .str "t"), ("scope", .str "file")],
    features :=
      [DNode.mk [("and", .seq
        [DNode.mk [("function", .seq
          [DNode.mk [("basic block", .seq
            [DNode.mk [("mnemonic", .str "mov")]])]])]])]] }

/-- The compiled form of `nestedSubDoc`. -/
def nestedSubRule : Rule :=
  { name := "t", scope := "file",
    statement :=
      .and [.subscope "function" (.subscope "basic block" (.feature (.mnemonic "mov")))],
    meta := [("name", .str "t"), ("scope", .str "file")], definition := "" }

/-- `nestedSubRule` after extraction: the subscope position holds a match
reference to the synthetic rule. -/
def nestedSubRuleAfter : Rule :=
  { name := "t", scope := "file",
    statement := .and [.feature (.matchedRule "t/0")],
    meta := [("name", .str "t"), ("scope", .str "file")], definition := "" }

/-- The single synthetic rule extracted from `nestedSubRule`: a
function-scope rule whose statement is the basic-block subscope marker
itself (which the worklist never peels further, since extraction only
replaces subscopes found at child positions). -/
def nestedSubSynth : Rule :=
  { name := "t/0", scope := "function",
    statement := .subscope "basic block" (.feature (.mnemonic "mov")),
    meta := [("name", .str "t/0"), ("scope", .str "function"), ("lib", .bool true),
             ("capa/subscope-rule", .bool true), ("capa/parent", .str "t")],
    definition := "" }

/-- A file-scope non-lib rule that depends, via a match reference, on the
rule named `l`. -/
def demoFileRule : Rule :=
  { name := "r", scope := "file", statement := .feature (.matchedRule "l"),
    meta := [("name", .str "r"), ("scope", .str "file")], definition := "" }

/-- A function-scope rule marked `lib: true`. -/
def demoLibRule : Rule :=
  { name := "l", scope := "function", statement := .feature (.api "CreateFileA"),
    meta := [("name", .str "l"), ("scope", .str "function"), ("lib", .bool true)],
    definition := "" }

/-- The two-rule collection of the dependency scenario. -/
def demoDepRules : List Rule := [demoFileRule, demoLibRule]

/-- The scope partition produced for `demoDepRules`. -/
def demoDepData : RuleSetData :=
  { file_rules := [demoFileRule], function_rules := [demoLibRule],
    basic_block_rules := [],
    rules := [("r", demoFileRule), ("l", demoLibRule)] }

/-- The construction outcome for `demoDepRules`. -/
def demoDepOutcome : InitOutcome :=
  { callerList := [], done := [demoFileRule, demoLibRule], result := .ok demoDepData }

/-- A second rule with the same name as `demoFileRule`. -/
def demoDupRule : Rule :=
  { name := "r", scope := "file", statement := .feature (.stringF "x"),
    meta := [("name", .str "r"), ("scope", .str "file")], definition := "" }

/-- A rule with both an embedded subscope (so extraction rewrites it) and
a match reference to a rule that does not exist (so the dependency stage
raises after the mutation already happened). -/
def demoMutRule : Rule :=
  { name := "a", scope := "file",
    statement := .and [.subscope "function" (.feature (.api "x")),
                       .feature (.matchedRule "missing")],
    meta := [("name", .str "a"), ("scope", .str "file")], definition := "" }

/-- `demoMutRule` after extraction. -/
def demoMutRuleAfter : Rule :=
  { name := "a", scope := "file",
    statement := .and [.feature (.matchedRule "a/0"), .feature (.matchedRule "missing")],
    meta := [("name", .str "a"), ("scope", .str "file")], definition := "" }

/-- The synthetic rule extracted from `demoMutRule`. -/
def demoMutSynth : Rule :=
  { name := "a/0", scope := "function", statement := .feature (.api "x"),
    meta := [("name", .str "a/0"), ("scope", .str "function"), ("lib", .bool true),
             ("capa/subscope-rule", .bool true), ("capa/parent", .str "a")],
    definition := "" }

/-- The construction outcome for `[demoMutRule]`: the dependency stage
raises, but the caller's list is already drained and the trees already
rewritten. -/
def demoMutOutcome : InitOutcome :=
  { callerList := [], done := [demoMutRuleAfter, demoMutSynth],
    result := .error (.invalidRule "rule \"a\" depends on missing rule \"missing\"") }

/-- The scope partition produced for `[nestedSubRule]`. -/
def nestedSubData : RuleSetData :=
  { file_rules := [nestedSubRuleAfter], function_rules := [nestedSubSynth],
    basic_block_rules := [],
    rules := [("t", nestedSubRuleAfter), ("t/0", nestedSubSynth)] }

/-- The construction outcome for `[nestedSubRule]`: accepted, with the
synthetic rule still carrying its root subscope marker. -/
def nestedSubOutcome : InitOutcome :=
  { callerList := [], done := [nestedSubRuleAfter, nestedSubSynth],
    result := .ok nestedSubData }

/- ----------------------------------------------------------------- -/
/- Theorems.                                                          -/
/- ----------------------------------------------------------------- -/

/-- C1: for a document whose single `features` entry is a bare subscope
mapping under file scope, `Rule.from_dict` does NOT fail: the check of
rules.py:483 tests the raw yaml mapping against the engine's `Subscope`
class, which is always false, so the rule is returned with the subscope
marker as its top-level statement.  The other half of the claim holds:
a `features` sequence without exactly one entry fails with "rule must
begin with a single top level statement". -/
theorem c1_top_level_statement_checks :
    from_dict subscopeTopDoc "" = .ok subscopeTopRule
  ∧ isSubscopeNode subscopeTopRule.statement = true
  ∧ from_dict subscopeTopDocTwo "" =
      .error (.invalidRule "rule must begin with a single top level statement")
  ∧ from_dict subscopeTopDocZero "" =
      .error (.invalidRule "rule must begin with a single top level statement") :=
  ⟨rfl, rfl, rfl, rfl⟩

/-- C3 counterexample: for the rule `{and: [{function: [{basic block:
[{mnemonic: mov}]}]}]}` the claim predicts exactly two synthetic rules,
i.e. three rules after the worklist completes; the code produces exactly
one synthetic rule (two rules total), because the second worklist pass
finds the remaining subscope at the synthetic rule's root, which
extraction never replaces. -/
theorem c3_not_two_synthetic_rules :
    (extractWorklist 10 [nestedSubRule] [] 0).map (fun p => p.1.length) = some 2
  ∧ (extractWorklist 10 [nestedSubRule] [] 0).map (fun p => decide (p.1.length = 3))
      = some false :=
  ⟨rfl, rfl⟩

/-- C3 (amended): the worklist extraction of the `{and: [{function:
[{basic block: [{mnemonic: mov}]}]}]}` rule produces exactly one
synthetic rule: a function-scope rule whose statement is the basic-block
subscope marker itself, with metadata {name, scope, lib: true, subscope
marker, parent link}; the subscope position of the original tree is
replaced by a match-reference leaf, and the second worklist pass extracts
nothing from the synthetic rule because its subscope sits at the root. -/
theorem c3_nested_subscope_extraction :
    from_dict nestedSubDoc "" = .ok nestedSubRule
  ∧ extractWorklist 10 [nestedSubRule] [] 0 = some ([nestedSubRuleAfter, nestedSubSynth], 1)
  ∧ nestedSubSynth.scope = "function"
  ∧ nestedSubSynth.statement = .subscope "basic block" (.feature (.mnemonic "mov"))
  ∧ lookupMeta nestedSubSynth.meta "name" = some (.str "t/0")
  ∧ lookupMeta nestedSubSynth.meta "scope" = some (.str "function")
  ∧ lookupMeta nestedSubSynth.meta "lib" = some (.bool true)
  ∧ lookupMeta nestedSubSynth.meta "capa/subscope-rule" = some (.bool true)
  ∧ lookupMeta nestedSubSynth.meta "capa/parent" = some (.str "t")
  ∧ nestedSubRuleAfter.statement = .and [.feature (.matchedRule "t/0")]
  ∧ (extractRule nestedSubSynth 1).2.1 = [] :=
  ⟨rfl, rfl, rfl, rfl, rfl, rfl, rfl, rfl, rfl, rfl, rfl⟩

/-- C2 counterexample: a collection accepted by RuleSet construction (the
compiled `{and: [{function: [{basic block: ...}]}]}` rule) whose resulting
rule set contains a rule with a Subscope node in its statement tree. -/
theorem c2_subscope_survives :
    (ruleSetInit 10 [nestedSubRule]).map
      (fun o => isOkB o.result && o.done.any (fun r => containsSubscope r.statement))
      = some true :=
  rfl

/-- C6: the behavior of `parse_range`: the spec's concrete examples,
and the general failure clauses (missing wrapping parentheses, a
present negative bound, max below min). -/
theorem c6_parse_range_spec :
    parse_range "(1,5)" = .ok (some 1, some 5)
  ∧ parse_range "(,5)" = .ok (none, some 5)
  ∧ parse_range "(1,)" = .ok (some 1, none)
  ∧ parse_range "(5,1)" = .error (.invalidRule "range max less than min")
  ∧ parse_range "1,5" = .error (.invalidRule "invalid range: 1,5")
  ∧ (∀ s : String, pyStartsWith s "(" = false →
      parse_range s = .error (.invalidRule ("invalid range: " ++ s)))
  ∧ (∀ s : String, pyStartsWith s "(" = true → pyEndsWith s ")" = false →
      parse_range s = .error (.invalidRule ("invalid range: " ++ s)))
  ∧ (∀ (s a b : String) (mn : Int), pyStartsWith s "(" = true → pyEndsWith s ")" = true →
      pyPartition (pySlice s 1 1) ',' = (a, b) →
      parse_int (pyStrip a) = some mn → mn < 0 →
      parse_range s = .error (.invalidRule "range min less than zero"))
  ∧ (∀ (s a b : String) (mx : Int), pyStartsWith s "(" = true → pyEndsWith s ")" = true →
      pyPartition (pySlice s 1 1) ',' = (a, b) → pyStrip a = "" →
      parse_int (pyStrip b) = some mx → mx < 0 →
      parse_range s = .error (.invalidRule "range max less than zero"))
  ∧ (∀ (s a b : String) (mn mx : Int), pyStartsWith s "(" = true → pyEndsWith s ")" = true →
      pyPartition (pySlice s 1 1) ',' = (a, b) →
      parse_int (pyStrip a) = some mn → 0 ≤ mn →
      parse_int (pyStrip b) = some mx → mx < 0 →
      parse_range s = .error (.invalidRule "range max less than zero"))
  ∧ (∀ (s a b : String) (mn mx : Int), pyStartsWith s "(" = true → pyEndsWith s ")" = true →
      pyPartition (pySlice s 1 1) ',' = (a, b) →
      parse_int (pyStrip a) = some mn → 0 ≤ mn →
      parse_int (pyStrip b) = some mx → 0 ≤ mx → mx < mn →
      parse_range s = .error (.invalidRule "range max less than min")) := by
  refine ⟨rfl, rfl, rfl, rfl, rfl, ?_, ?_, ?_, ?_, ?_, ?_⟩
  · intro s h1
    simp [parse_range, h1]
  · intro s h1 h2
    simp [parse_range, h1, h2]
  · intro s a b mn h1 h2 hpart hmin hneg
    have hne : pyStrip a ≠ "" := by
      intro h0
      rw [h0, show parse_int "" = (none : Option Int) from rfl] at hmin
      cases hmin
    simp [parse_range, h1, h2, hpart, hne, hmin, hneg]
  · intro s a b mx h1 h2 hpart hempty hmax hneg
    have hne : pyStrip b ≠ "" := by
      intro h0
      rw [h0, show parse_int "" = (none : Option Int) from rfl] at hmax
      cases hmax
    simp [parse_range, h1, h2, hpart, hempty, hne, hmax, hneg]
  · intro s a b mn mx h1 h2 hpart hmin hnn hmax hneg
    have hnea : pyStrip a ≠ "" := by
      intro h0; rw [h0, show parse_int "" = (none : Option Int) from rfl] at hmin; cases hmin
    have hneb : pyStrip b ≠ "" := by
      intro h0; rw [h0, show parse_int "" = (none : Option Int) from rfl] at hmax; cases hmax
    have : ¬ mn < 0 := by omega
    simp [parse_range, h1, h2, hpart, hnea, hneb, hmin, hmax, hneg, this]
  · intro s a b mn mx h1 h2 hpart hmin hnn hmax hnx hlt
    have hnea : pyStrip a ≠ "" := by
      intro h0; rw [h0, show parse_int "" = (none : Option Int) from rfl] at hmin; cases hmin
    have hneb : pyStrip b ≠ "" := by
      intro h0; rw [h0, show parse_int "" = (none : Option Int) from rfl] at hmax; cases hmax
    have hn1 : ¬ mn < 0 := by omega
    have hn2 : ¬ mx < 0 := by omega
    simp [parse_range, h1, h2, hpart, hnea, hneb, hmin, hmax, hn1, hn2, hlt]

/-- C6 witness: the general clauses of `c6_parse_range_spec` instantiated
at concrete inputs. -/
theorem c6_parse_range_spec_witness :
    parse_range "(-1,5)" = .error (.invalidRule "range min less than zero")
  ∧ parse_range "(1,-5)" = .error (.invalidRule "range max less than zero")
  ∧ parse_range "abc" = .error (.invalidRule "invalid range: abc")
  ∧ parse_range "(9,2)" = .error (.invalidRule "range max less than min") := by
  obtain ⟨-, -, -, -, -, hnp, hne, hminneg, hmaxneg1, hmaxneg2, hmaxmin⟩ := c6_parse_range_spec
  refine ⟨?_, ?_, ?_, ?_⟩
  · exact hminneg "(-1,5)" "-1" "5" (-1) rfl rfl rfl rfl (by decide)
  · exact hmaxneg2 "(1,-5)" "1" "-5" 1 (-5) rfl rfl rfl rfl (by decide) rfl (by decide)
  · exact hnp "abc" rfl
  · exact hmaxmin "(9,2)" "9" "2" 9 2 rfl rfl rfl rfl (by decide) rfl (by decide) (by decide)

/-- C7: the behavior of `parse_symbol`: the spec's concrete examples; an
`=` separator with an empty symbol part (after stripping) fails; kind
`bytes` hex-decodes the literal with spaces removed, failing on invalid
hex and on decoded length beyond the maximum byte-feature size; other
kinds parse the string literal with `parse_int`, failing when
non-numeric. -/
theorem c7_parse_symbol_spec :
    parse_symbol (.str "0x4550 = IMAGE_DOS_SIGNATURE") "number"
      = .ok (.int 17744, some "IMAGE_DOS_SIGNATURE")
  ∧ parse_symbol (.str "37") "number" = .ok (.int 37, none)
  ∧ (∀ (s a b : String) (kind : String), s.toList.contains '=' = true →
      pyPartition s '=' = (a, b) → pyStrip b = "" →
      parse_symbol (.str s) kind =
        .error (.invalidRule ("unexpected value: \"" ++ s ++ "\", symbol name cannot be empty")))
  ∧ (∀ v : String, v.toList.contains '=' = false →
      hexDecode (pyReplaceSpaces v).toList = none →
      parse_symbol (.str v) "bytes" =
        .error (.invalidRule ("unexpected bytes value: \"" ++ v ++ "\", must be a valid hex sequence")))
  ∧ (∀ (v : String) (bs : List Nat), v.toList.contains '=' = false →
      hexDecode (pyReplaceSpaces v).toList = some bs → bs.length > MAX_BYTES_FEATURE_SIZE →
      parse_symbol (.str v) "bytes" =
        .error (.invalidRule ("unexpected bytes value: byte sequences must be no larger than "
          ++ toString MAX_BYTES_FEATURE_SIZE ++ " bytes")))
  ∧ (∀ (v : String) (bs : List Nat), v.toList.contains '=' = false →
      hexDecode (pyReplaceSpaces v).toList = some bs → bs.length ≤ MAX_BYTES_FEATURE_SIZE →
      parse_symbol (.str v) "bytes" = .ok (.bytes bs, none))
  ∧ (∀ (v kind : String), kind ≠ "bytes" → v.toList.contains '=' = false →
      parse_int v = none →
      parse_symbol (.str v) kind =
        .error (.invalidRule ("unexpected value: \"" ++ v ++ "\", must begin with numerical value"))) := by
  refine ⟨rfl, rfl, ?_, ?_, ?_, ?_, ?_⟩
  · intro s a b kind hc hpart hempty
    have hc2 : '=' ∈ s.data := by simpa using hc
    simp [parse_symbol, hc2, hpart, hempty]
  · intro v hc hhex
    have hc2 : '=' ∉ v.data := by simpa using hc
    have hhex2 : hexDecode (pyReplaceSpaces v).data = none := hhex
    simp [parse_symbol, hc2, parseSymbolValue, hhex2]
  · intro v bs hc hhex hlen
    have hc2 : '=' ∉ v.data := by simpa using hc
    have hhex2 : hexDecode (pyReplaceSpaces v).data = some bs := hhex
    simp [parse_symbol, hc2, parseSymbolValue, hhex2, hlen]
  · intro v bs hc hhex hlen
    have hc2 : '=' ∉ v.data := by simpa using hc
    have hhex2 : hexDecode (pyReplaceSpaces v).data = some bs := hhex
    have hn : ¬ MAX_BYTES_FEATURE_SIZE < bs.length := by omega
    simp [parse_symbol, hc2, parseSymbolValue, hhex2, hn]
  · intro v kind hk hc hint
    have hc2 : '=' ∉ v.data := by simpa using hc
    simp [parse_symbol, hc2, parseSymbolValue, hk, hint]

set_option maxRecDepth 40000 in
/-- C7 witness: the general clauses of `c7_parse_symbol_spec` instantiated
at concrete inputs (including a 514-hex-digit literal that decodes to 257
bytes, one over the maximum). -/
theorem c7_parse_symbol_spec_witness :
    parse_symbol (.str "5 =") "number"
      = .error (.invalidRule "unexpected value: \"5 =\", symbol name cannot be empty")
  ∧ parse_symbol (.str "zz") "bytes"
      = .error (.invalidRule "unexpected bytes value: \"zz\", must be a valid hex sequence")
  ∧ parse_symbol (.str (String.mk (List.replicate 514 '0'))) "bytes"
      = .error (.invalidRule ("unexpected bytes value: byte sequences must be no larger than "
          ++ toString MAX_BYTES_FEATURE_SIZE ++ " bytes"))
  ∧ parse_symbol (.str "01 02 ff") "bytes" = .ok (.bytes [1, 2, 255], none)
  ∧ parse_symbol (.str "abc") "number"
      = .error (.invalidRule "unexpected value: \"abc\", must begin with numerical value") := by
  obtain ⟨-, -, hsym, hhexbad, hbound, hok, hnum⟩ := c7_parse_symbol_spec
  refine ⟨?_, ?_, ?_, ?_, ?_⟩
  · exact hsym "5 =" "5 " "" "number" rfl rfl rfl
  · exact hhexbad "zz" rfl rfl
  · exact hbound (String.mk (List.replicate 514 '0')) (List.replicate 257 0) (by decide) rfl
      (by simp [MAX_BYTES_FEATURE_SIZE])
  · exact hok "01 02 ff" [1, 2, 255] rfl rfl (by decide)
  · exact hnum "abc" "number" (by decide) rfl rfl

/-- C5: for a `count(<term>)` key whose feature parses and validates, the
attached count value is interpreted as: a bare integer N gives
`Range(N, N)`; a string ending in " or more" gives min=N, unbounded max;
a string ending in " or fewer" gives unbounded min, max=N; a string
starting with "(" goes through the range grammar; any other string raises
the rule-definition error "unexpected range: ...".  The first block of
hypotheses pins the key to the `count(` branch of the dispatch chain. -/
theorem c5_count_interpretation :
  ∀ (key scope : String) (f : Feature),
    key ≠ "and" → key ≠ "or" → key ≠ "not" →
    pyEndsWith key " or more" = false → key ≠ "optional" →
    key ≠ "function" → key ≠ "basic block" →
    pyStartsWith key "count(" = true → pyEndsWith key ")" = true →
    buildCountFeature (pySlice key 6 1) scope = .ok f →
      (∀ n : Int, build_statements (.mk [(key, .int n)]) scope = .ok (.range f (some n) (some n)))
    ∧ (∀ (c : String) (n : Int), pyEndsWith c " or more" = true → parse_int (pySlice c 0 8) = some n →
        build_statements (.mk [(key, .str c)]) scope = .ok (.range f (some n) none))
    ∧ (∀ (c : String) (n : Int), pyEndsWith c " or more" = false → pyEndsWith c " or fewer" = true →
        parse_int (pySlice c 0 9) = some n →
        build_statements (.mk [(key, .str c)]) scope = .ok (.range f none (some n)))
    ∧ (∀ (c : String) (mn mx : Option Int), pyEndsWith c " or more" = false →
        pyEndsWith c " or fewer" = false → pyStartsWith c "(" = true →
        parse_range c = .ok (mn, mx) →
        build_statements (.mk [(key, .str c)]) scope = .ok (.range f mn mx))
    ∧ (∀ c : String, pyEndsWith c " or more" = false → pyEndsWith c " or fewer" = false →
        pyStartsWith c "(" = false →
        build_statements (.mk [(key, .str c)]) scope = .error (.invalidRule ("unexpected range: " ++ c))) := by
  intro key scope f h1 h2 h3 h4 h5 h6 h7 h8 h9 hf
  refine ⟨?_, ?_, ?_, ?_, ?_⟩
  · intro n
    simp [build_statements, h1, h2, h3, h4, h5, h6, h7, h8, h9, hf]
  · intro c n hm hp
    simp [build_statements, h1, h2, h3, h4, h5, h6, h7, h8, h9, hf, hm, hp]
  · intro c n hm hfew hp
    simp [build_statements, h1, h2, h3, h4, h5, h6, h7, h8, h9, hf, hm, hfew, hp]
  · intro c mn mx hm hfew hp hr
    simp [build_statements, h1, h2, h3, h4, h5, h6, h7, h8, h9, hf, hm, hfew, hp, hr]
  · intro c hm hfew hp
    simp [build_statements, h1, h2, h3, h4, h5, h6, h7, h8, h9, hf, hm, hfew, hp]

/-- C5 witness: `c5_count_interpretation` instantiated at the key
`count(mnemonic(mov))` under function scope, with one count value of each
shape. -/
theorem c5_count_interpretation_witness :
    build_statements (.mk [("count(mnemonic(mov))", .int 2)]) "function"
      = .ok (.range (.mnemonic "mov") (some 2) (some 2))
  ∧ build_statements (.mk [("count(mnemonic(mov))", .str "2 or more")]) "function"
      = .ok (.range (.mnemonic "mov") (some 2) none)
  ∧ build_statements (.mk [("count(mnemonic(mov))", .str "10 or fewer")]) "function"
      = .ok (.range (.mnemonic "mov") none (some 10))
  ∧ build_statements (.mk [("count(mnemonic(mov))", .str "(2,4)")]) "function"
      = .ok (.range (.mnemonic "mov") (some 2) (some 4))
  ∧ build_statements (.mk [("count(mnemonic(mov))", .str "lots")]) "function"
      = .error (.invalidRule "unexpected range: lots") := by
  obtain ⟨hint, hmore, hfewer, hrange, helse⟩ :=
    c5_count_interpretation "count(mnemonic(mov))" "function" (.mnemonic "mov")
      (by decide) (by decide) (by decide) (by decide) (by decide) (by decide) (by decide)
      rfl rfl rfl
  exact ⟨hint 2, hmore "2 or more" 2 rfl rfl, hfewer "10 or fewer" 10 rfl rfl rfl,
    hrange "(2,4)" (some 2) (some 4) rfl rfl rfl rfl, helse "lots" rfl rfl rfl⟩

/-- A node that `asSubscope` rejects is not a subscope marker. -/
theorem asSubscope_none_isSubscope (s : Stmt) (h : asSubscope s = none) :
    isSubscopeNode s = false := by
  cases s <;> simp_all [asSubscope, isSubscopeNode]

/-- After one extraction pass, a non-subscope node is entirely
subscope-free, and any node has no subscope strictly below its root
(strong induction on the node size, with the companion statement about
child lists). -/
theorem extractFree (n : Nat) :
    (∀ s : Stmt, sizeOf s ≤ n → ∀ pn c,
        noSubscopeBelowRoot (extractStmt pn c s).1 = true
      ∧ (isSubscopeNode s = false → containsSubscope (extractStmt pn c s).1 = false))
  ∧ (∀ cs : List Stmt, sizeOf cs ≤ n → ∀ pn c1 c2,
        containsSubscopeList (extractWalk pn c1 c2 cs).1 = false) := by
  induction n with
  | zero =>
    constructor
    · intro s hs
      exact absurd hs (by cases s <;> simp_arith)
    · intro cs hcs
      exact absurd hcs (by cases cs <;> simp_arith)
  | succ n ih =>
    obtain ⟨ihS, ihL⟩ := ih
    constructor
    · intro s hs pn c
      match s with
      | .and cs =>
        have hsz : sizeOf cs ≤ n := by simp at hs; omega
        rcases hw : extractWalk pn c (c + countSubscopes cs) cs with ⟨cs2, rs1, rs2, cf⟩
        have := ihL cs hsz pn c (c + countSubscopes cs)
        rw [hw] at this
        simp [extractStmt, hw, noSubscopeBelowRoot, subscopeFree, containsSubscope,
          isSubscopeNode, this]
      | .or cs =>
        have hsz : sizeOf cs ≤ n := by simp at hs; omega
        rcases hw : extractWalk pn c (c + countSubscopes cs) cs with ⟨cs2, rs1, rs2, cf⟩
        have := ihL cs hsz pn c (c + countSubscopes cs)
        rw [hw] at this
        simp [extractStmt, hw, noSubscopeBelowRoot, subscopeFree, containsSubscope,
          isSubscopeNode, this]
      | .someN k cs =>
        have hsz : sizeOf cs ≤ n := by simp at hs; omega
        rcases hw : extractWalk pn c (c + countSubscopes cs) cs with ⟨cs2, rs1, rs2, cf⟩
        have := ihL cs hsz pn c (c + countSubscopes cs)
        rw [hw] at this
        simp [extractStmt, hw, noSubscopeBelowRoot, subscopeFree, containsSubscope,
          isSubscopeNode, this]
      | .not ch =>
        have hsz : sizeOf ch ≤ n := by simp at hs; omega
        cases hsub : asSubscope ch with
        | some p =>
          rcases p with ⟨sc, sub⟩
          simp [extractStmt, hsub, noSubscopeBelowRoot, subscopeFree, containsSubscope,
            isSubscopeNode]
        | none =>
          rcases he : extractStmt pn c ch with ⟨ch2, rs, c2⟩
          have := (ihS ch hsz pn c).2 (asSubscope_none_isSubscope ch hsub)
          rw [he] at this
          simp [extractStmt, hsub, he, noSubscopeBelowRoot, subscopeFree, containsSubscope,
            isSubscopeNode, this]
      | .subscope sc ch =>
        have hsz : sizeOf ch ≤ n := by simp at hs; omega
        cases hsub : asSubscope ch with
        | some p =>
          rcases p with ⟨sc2, sub⟩
          simp [extractStmt, hsub, noSubscopeBelowRoot, subscopeFree, containsSubscope,
            isSubscopeNode]
        | none =>
          rcases he : extractStmt pn c ch with ⟨ch2, rs, c2⟩
          have := (ihS ch hsz pn c).2 (asSubscope_none_isSubscope ch hsub)
          rw [he] at this
          simp [extractStmt, hsub, he, noSubscopeBelowRoot, subscopeFree, containsSubscope,
            isSubscopeNode, this]
      | .range f mn mx =>
        simp [extractStmt, noSubscopeBelowRoot, subscopeFree, containsSubscope, isSubscopeNode]
      | .regex p =>
        simp [extractStmt, noSubscopeBelowRoot, subscopeFree, containsSubscope, isSubscopeNode]
      | .feature f =>
        simp [extractStmt, noSubscopeBelowRoot, subscopeFree, containsSubscope, isSubscopeNode]
    · intro cs hcs pn c1 c2
      match cs with
      | [] => simp [extractWalk, containsSubscopeList]
      | c :: rest =>
        have hszc : sizeOf c ≤ n := by simp at hcs; omega
        have hszr : sizeOf rest ≤ n := by simp at hcs; omega
        cases hsub : asSubscope c with
        | some p =>
          rcases p with ⟨sc, sub⟩
          rcases hw : extractWalk pn (c1 + 1) c2 rest with ⟨cs2, rs1, rs2, cf⟩
          have := ihL rest hszr pn (c1 + 1) c2
          rw [hw] at this
          simp [extractWalk, hsub, hw, containsSubscopeList, containsSubscope, this]
        | none =>
          rcases he : extractStmt pn c2 c with ⟨c2s, crs, c2n⟩
          rcases hw : extractWalk pn c1 c2n rest with ⟨cs2, rs1, rs2, cf⟩
          have h1 := (ihS c hszc pn c2).2 (asSubscope_none_isSubscope c hsub)
          rw [he] at h1
          have h2 := ihL rest hszr pn c1 c2n
          rw [hw] at h2
          simp [extractWalk, hsub, he, hw, containsSubscopeList, h1, h2]

/-- One extraction pass leaves a rule with no subscope strictly below the
root of its statement. -/
theorem extractRule_noSubBelow (r : Rule) (ctr : Nat) :
    noSubscopeBelowRoot (extractRule r ctr).1.statement = true := by
  rcases he : extractStmt r.name ctr r.statement with ⟨st, rs, c2⟩
  have h := ((extractFree (sizeOf r.statement)).1 r.statement le_rfl r.name ctr).1
  rw [he] at h
  simp [extractRule, he, h]

/-- Every rule delivered by the worklist has been through one extraction
pass, so it has no subscope strictly below its root. -/
theorem extractWorklist_free :
    ∀ (fuel : Nat) (wl done : List Rule) (ctr : Nat) (out : List Rule) (octr : Nat),
      (∀ r ∈ done, noSubscopeBelowRoot r.statement = true) →
      extractWorklist fuel wl done ctr = some (out, octr) →
      ∀ r ∈ out, noSubscopeBelowRoot r.statement = true := by
  intro fuel
  induction fuel with
  | zero =>
    intro wl done ctr out octr hdone h
    cases wl with
    | nil =>
      simp [extractWorklist] at h
      obtain ⟨h1, h2⟩ := h
      subst h1
      exact hdone
    | cons r rest => simp [extractWorklist] at h
  | succ fuel ih =>
    intro wl done ctr out octr hdone h
    cases wl with
    | nil =>
      simp [extractWorklist] at h
      obtain ⟨h1, h2⟩ := h
      subst h1
      exact hdone
    | cons r rest =>
      rcases he : extractRule r ctr with ⟨r2, news, c2⟩
      rw [extractWorklist, he] at h
      refine ih (rest ++ news) (done ++ [r2]) c2 out octr ?_ h
      intro x hx
      rcases List.mem_append.1 hx with hx | hx
      · exact hdone x hx
      · have hx2 : x = r2 := by simpa using hx
        subst hx2
        have := extractRule_noSubBelow r ctr
        rw [he] at this
        exact this

/-- Dissection of `ruleSetInit` when the uniqueness stage passes: the
caller's list is drained and `done` is the worklist's output, whatever the
later stages do. -/
theorem ruleSetInit_stages (fuel : Nat) (rules : List Rule) (o : InitOutcome)
    (h : ruleSetInit fuel rules = some o) (hu : ensure_rules_are_unique rules = .ok ()) :
    o.callerList = [] ∧ ∃ ctr, extractWorklist fuel rules [] 0 = some (o.done, ctr) := by
  unfold ruleSetInit at h
  rw [hu] at h
  cases hext : extractWorklist fuel rules [] 0 with
  | none => rw [hext] at h; cases h
  | some p =>
    rcases p with ⟨done, ctr⟩
    rw [hext] at h
    dsimp only at h
    cases hdep : ensure_rule_dependencies_are_met done with
    | error e =>
      rw [hdep] at h
      injection h with h
      subst h
      exact ⟨rfl, ctr, rfl⟩
    | ok u =>
      cases u
      rw [hdep] at h
      by_cases hlen : done.length = 0
      · rw [if_pos hlen] at h
        injection h with h
        subst h
        exact ⟨rfl, ctr, rfl⟩
      · rw [if_neg hlen] at h
        injection h with h
        subst h
        exact ⟨rfl, ctr, rfl⟩

/-- Dissection of a successful `ruleSetInit`: the three scope lists of the
returned data are the `_get_rules_for_scope` computations over the
processed collection. -/
theorem ruleSetInit_ok_fields (fuel : Nat) (rules : List Rule) (o : InitOutcome)
    (d : RuleSetData) (h : ruleSetInit fuel rules = some o) (hres : o.result = .ok d) :
    d.file_rules = getRulesForScope o.done "file"
  ∧ d.function_rules = getRulesForScope o.done "function"
  ∧ d.basic_block_rules = getRulesForScope o.done "basic block" := by
  unfold ruleSetInit at h
  cases hu : ensure_rules_are_unique rules with
  | error e =>
    rw [hu] at h
    injection h with h
    subst h
    simp at hres
  | ok u =>
    cases u
    rw [hu] at h
    cases hext : extractWorklist fuel rules [] 0 with
    | none => rw [hext] at h; cases h
    | some p =>
      rcases p with ⟨done, ctr⟩
      rw [hext] at h
      dsimp only at h
      cases hdep : ensure_rule_dependencies_are_met done with
      | error e =>
        rw [hdep] at h
        injection h with h
        subst h
        simp at hres
      | ok u =>
        cases u
        rw [hdep] at h
        by_cases hlen : done.length = 0
        · rw [if_pos hlen] at h
          injection h with h
          subst h
          simp at hres
        · rw [if_neg hlen] at h
          injection h with h
          subst h
          simp at hres
          subst hres
          exact ⟨rfl, rfl, rfl⟩

/-- A successful `ruleSetInit` passed the uniqueness stage. -/
theorem ruleSetInit_ok_unique (fuel : Nat) (rules : List Rule) (o : InitOutcome)
    (d : RuleSetData) (h : ruleSetInit fuel rules = some o) (hres : o.result = .ok d) :
    ensure_rules_are_unique rules = .ok () := by
  cases hu : ensure_rules_are_unique rules with
  | error e =>
    unfold ruleSetInit at h
    rw [hu] at h
    injection h with h
    subst h
    simp at hres
  | ok u => cases u; rfl

/-- C2 (amended): for every collection accepted by RuleSet construction,
after the worklist-driven extraction no rule of the resulting set has a
Subscope node strictly below the root of its statement tree.  (A subscope
marker can survive as the ROOT of a synthetic rule, since extraction only
replaces subscopes found at child positions — see the counterexample.) -/
theorem c2_no_subscope_below_root :
  ∀ (fuel : Nat) (rules : List Rule) (o : InitOutcome) (d : RuleSetData),
    ruleSetInit fuel rules = some o → o.result = .ok d →
    ∀ r ∈ o.done, noSubscopeBelowRoot r.statement = true := by
  intro fuel rules o d h hres r hr
  have hu := ruleSetInit_ok_unique fuel rules o d h hres
  obtain ⟨-, ctr, hext⟩ := ruleSetInit_stages fuel rules o h hu
  exact extractWorklist_free fuel rules [] 0 o.done ctr
    (fun x hx => absurd hx (List.not_mem_nil x)) hext r hr

/-- C2 witness: `c2_no_subscope_below_root` at the accepted collection
`[nestedSubRule]`. -/
theorem c2_no_subscope_below_root_witness :
    ruleSetInit 10 [nestedSubRule] = some nestedSubOutcome
  ∧ nestedSubOutcome.done.all (fun r => noSubscopeBelowRoot r.statement) = true := by
  refine ⟨rfl, ?_⟩
  rw [List.all_eq_true]
  intro r hr
  exact c2_no_subscope_below_root 10 [nestedSubRule] nestedSubOutcome nestedSubData rfl rfl r hr

/-- C9: once the uniqueness stage has passed, RuleSet construction drains
the caller's rule list (the worklist pops every element) and replaces the
rules by their extraction rewrites (subscope markers at child positions
replaced by match-reference leaves), and this holds whatever the later
stages (dependency check, empty check) return — the mutation persists even
when construction raises. -/
theorem c9_init_mutates_argument :
  ∀ (fuel : Nat) (rules : List Rule) (o : InitOutcome),
    ruleSetInit fuel rules = some o →
    ensure_rules_are_unique rules = .ok () →
      o.callerList = []
    ∧ (∃ ctr, extractWorklist fuel rules [] 0 = some (o.done, ctr))
    ∧ ∀ r ∈ o.done, noSubscopeBelowRoot r.statement = true := by
  intro fuel rules o h hu
  obtain ⟨h1, ctr, hext⟩ := ruleSetInit_stages fuel rules o h hu
  exact ⟨h1, ⟨ctr, hext⟩,
    extractWorklist_free fuel rules [] 0 o.done ctr
      (fun x hx => absurd hx (List.not_mem_nil x)) hext⟩

/-- C9 witness: `c9_init_mutates_argument` at `[demoMutRule]`, where the
dependency stage raises (`demoMutOutcome.result` is an `InvalidRule`
error) and yet the caller's list is empty and the tree rewrite (the
subscope replaced by `match: a/0`) has persisted. -/
theorem c9_init_mutates_argument_witness :
    ruleSetInit 10 [demoMutRule] = some demoMutOutcome
  ∧ demoMutOutcome.callerList = []
  ∧ isRuleErrB demoMutOutcome.result = true
  ∧ demoMutOutcome.done.all (fun r => noSubscopeBelowRoot r.statement) = true
  ∧ demoMutRuleAfter.statement
      = .and [.feature (.matchedRule "a/0"), .feature (.matchedRule "missing")] := by
  have h := c9_init_mutates_argument 10 [demoMutRule] demoMutOutcome rfl rfl
  refine ⟨rfl, h.1, rfl, ?_, rfl⟩
  rw [List.all_eq_true]
  exact h.2.2

/-- A passing uniqueness scan means the rule names (beyond the already
seen ones) are pairwise distinct. -/
theorem ensureUniqueGo_ok_nodup :
    ∀ (rules : List Rule) (seen : List String),
      ensureRulesAreUniqueGo seen rules = .ok () →
      (ruleNames rules).Nodup ∧ ∀ n ∈ ruleNames rules, ¬ seen.contains n = true := by
  intro rules
  induction rules with
  | nil => intro seen h; simp [ruleNames]
  | cons r rest ih =>
    intro seen h
    rw [ensureRulesAreUniqueGo] at h
    by_cases hc : seen.contains r.name
    · rw [if_pos hc] at h; cases h
    · rw [if_neg hc] at h
      obtain ⟨h1, h2⟩ := ih (r.name :: seen) h
      refine ⟨?_, ?_⟩
      · rw [ruleNames, List.map_cons, List.nodup_cons]
        refine ⟨?_, h1⟩
        intro hmem
        have := h2 r.name hmem
        simp at this
      · intro n hn
        rw [ruleNames, List.map_cons, List.mem_cons] at hn
        rcases hn with hn | hn
        · subst hn
          simpa using hc
        · have := h2 n (by simpa [ruleNames] using hn)
          simp at this
          intro hcon
          simp at hcon
          exact this.2 hcon
    
/-- The uniqueness scan either passes or raises the duplicate-name
`InvalidRule` error. -/
theorem ensureUniqueGo_shape :
    ∀ (rules : List Rule) (seen : List String),
      ensureRulesAreUniqueGo seen rules = .ok ()
    ∨ ∃ n, ensureRulesAreUniqueGo seen rules
        = .error (.invalidRule ("duplicate rule name: " ++ n)) := by
  intro rules
  induction rules with
  | nil => intro seen; left; rfl
  | cons r rest ih =>
    intro seen
    by_cases hc : seen.contains r.name
    · right
      exact ⟨r.name, by rw [ensureRulesAreUniqueGo, if_pos hc]⟩
    · have := ih (r.name :: seen)
      rw [ensureRulesAreUniqueGo]
      rw [if_neg hc]
      exact this

/-- The dependency scan either passes or raises the missing-dependency
`InvalidRule` error. -/
theorem ensureDepsGo_shape :
    ∀ (rules : List Rule) (names : List String),
      ensureDepsGo names rules = .ok ()
    ∨ ∃ a d, ensureDepsGo names rules
        = .error (.invalidRule ("rule \"" ++ a ++ "\" depends on missing rule \"" ++ d ++ "\"")) := by
  intro rules
  induction rules with
  | nil => intro names; left; rfl
  | cons r rest ih =>
    intro names
    rw [ensureDepsGo]
    cases hf : (getDependencies r).find? (fun d => !(names.contains d)) with
    | some d => right; exact ⟨r.name, d, rfl⟩
    | none => exact ih names

/-- A passing dependency scan means every dependency of every rule
resolves. -/
theorem ensureDepsGo_ok_mem :
    ∀ (rules : List Rule) (names : List String),
      ensureDepsGo names rules = .ok () →
      ∀ r ∈ rules, ∀ d ∈ getDependencies r, names.contains d = true := by
  intro rules
  induction rules with
  | nil => intro names h r hr; cases hr
  | cons r0 rest ih =>
    intro names h r hr d hd
    rw [ensureDepsGo] at h
    cases hf : (getDependencies r0).find? (fun d => !(names.contains d)) with
    | some d0 => rw [hf] at h; cases h
    | none =>
      rw [hf] at h
      rw [List.mem_cons] at hr
      rcases hr with hr | hr
      · subst hr
        have := List.find?_eq_none.1 hf d hd
        simpa using this
      · exact ih names h r hr d hd

/-- C8 (amended): RuleSet construction fails in all three cases, but the
error classes differ from the claim: a duplicate rule name and an
unresolved dependency raise the rule-definition error `InvalidRule`
(rules.py:603 and rules.py:618), while only the empty final collection
raises the ruleset-integrity error `InvalidRuleSet` (rules.py:646); in
particular `RuleSet([])` fails with the "no rules selected" empty-ruleset
error. -/
theorem c8_integrity_error_classes :
    (∀ (fuel : Nat) (rules : List Rule), ¬ (ruleNames rules).Nodup →
      ∃ n, ruleSetInit fuel rules
        = some { callerList := rules, done := [],
                 result := .error (.invalidRule ("duplicate rule name: " ++ n)) })
  ∧ (∀ (fuel : Nat) (rules done : List Rule) (ctr : Nat),
      ensure_rules_are_unique rules = .ok () →
      extractWorklist fuel rules [] 0 = some (done, ctr) →
      (∃ r ∈ pyDictValues done, ∃ d ∈ getDependencies r,
        (ruleNames (pyDictValues done)).contains d = false) →
      ∃ a d, ruleSetInit fuel rules
        = some { callerList := [], done := done,
                 result := .error (.invalidRule
                   ("rule \"" ++ a ++ "\" depends on missing rule \"" ++ d ++ "\"")) })
  ∧ (∀ fuel : Nat, ruleSetInit fuel []
      = some { callerList := [], done := [],
               result := .error (.invalidRuleSet "no rules selected") }) := by
  refine ⟨?_, ?_, ?_⟩
  · intro fuel rules hnodup
    rcases ensureUniqueGo_shape rules [] with hok | ⟨n, he⟩
    · exact absurd (ensureUniqueGo_ok_nodup rules [] hok).1 hnodup
    · refine ⟨n, ?_⟩
      unfold ruleSetInit
      rw [show ensure_rules_are_unique rules
            = .error (.invalidRule ("duplicate rule name: " ++ n)) from he]
  · intro fuel rules done ctr hu hext hmiss
    rcases ensureDepsGo_shape (pyDictValues done) (ruleNames (pyDictValues done)) with hok | ⟨a, d, he⟩
    · exfalso
      obtain ⟨r, hr, d, hd, hfalse⟩ := hmiss
      have := ensureDepsGo_ok_mem (pyDictValues done) (ruleNames (pyDictValues done)) hok r hr d hd
      rw [hfalse] at this
      cases this
    · refine ⟨a, d, ?_⟩
      unfold ruleSetInit
      rw [hu, hext]
      dsimp only
      rw [show ensure_rule_dependencies_are_met done
            = .error (.invalidRule
                ("rule \"" ++ a ++ "\" depends on missing rule \"" ++ d ++ "\"")) from he]
  · intro fuel
    cases fuel <;> rfl

/-- C8 counterexample: at a duplicate rule name and at a missing
dependency, construction fails but NOT with the ruleset-integrity error
(`InvalidRuleSet`) the claim predicts. -/
theorem c8_error_class_counterexample :
    (ruleSetInit 4 [demoFileRule, demoDupRule]).map (fun o => isIntegrityErrB o.result)
      = some false
  ∧ (ruleSetInit 4 [demoFileRule, demoDupRule]).map (fun o => isOkB o.result) = some false
  ∧ (ruleSetInit 4 [demoFileRule]).map (fun o => isIntegrityErrB o.result) = some false
  ∧ (ruleSetInit 4 [demoFileRule]).map (fun o => isOkB o.result) = some false :=
  ⟨rfl, rfl, rfl, rfl⟩

/-- C8 witness: `c8_integrity_error_classes` at a duplicate pair, at a
rule with an unresolved `match: l` dependency, and at the empty
collection. -/
theorem c8_integrity_error_classes_witness :
    (ruleSetInit 4 [demoFileRule, demoDupRule]).map (fun o => isRuleErrB o.result) = some true
  ∧ (ruleSetInit 4 [demoFileRule]).map (fun o => isRuleErrB o.result) = some true
  ∧ ruleSetInit 4 ([] : List Rule)
      = some { callerList := [], done := [],
               result := .error (.invalidRuleSet "no rules selected") } := by
  obtain ⟨hdup, hdep, hempty⟩ := c8_integrity_error_classes
  refine ⟨?_, ?_, hempty 4⟩
  · obtain ⟨n, hn⟩ := hdup 4 [demoFileRule, demoDupRule] (by decide)
    rw [hn]
    rfl
  · obtain ⟨a, d, hn⟩ := hdep 4 [demoFileRule] [demoFileRule] 0 rfl rfl
      ⟨demoFileRule,
        by rw [show pyDictValues [demoFileRule] = [demoFileRule] from rfl]; exact List.mem_singleton_self _,
        "l", by rw [show getDependencies demoFileRule = ["l"] from rfl]; exact List.mem_singleton_self _,
        rfl⟩
    rw [hn]
    rfl

/-- The topological-ordering model permutes its input: membership is
preserved. -/
theorem mem_topoGo :
    ∀ (f : Nat) (placed rem : List Rule) (x : Rule),
      x ∈ topoGo f placed rem ↔ x ∈ placed ∨ x ∈ rem := by
  intro f
  induction f with
  | zero => intro placed rem x; simp [topoGo]
  | succ f ih =>
    intro placed rem x
    rw [topoGo]
    by_cases hready : (rem.filter (topoReady placed rem)).isEmpty
    · rw [if_pos hready]; simp
    · rw [if_neg hready]
      rw [ih]
      simp only [List.mem_append, List.mem_filter]
      by_cases hx : topoReady placed rem x = true
      · simp [hx]
      · simp [hx]

/-- Membership in the modelled `topologically_order_rules`. -/
theorem mem_topologicallyOrderRules (rules : List Rule) (x : Rule) :
    x ∈ topologicallyOrderRules rules ↔ x ∈ rules := by
  rw [topologicallyOrderRules, mem_topoGo]
  simp

/-- Membership in the union of the non-lib rules' dependency closures. -/
theorem mem_scopeRulesUnion :
    ∀ (base rules : List Rule) (L : Rule),
      (L ∈ rules.foldr (fun r acc => if isLibRule r then acc
          else get_rules_and_dependencies base r.name ++ acc) [])
      ↔ ∃ r ∈ rules, isLibRule r = false ∧ L ∈ get_rules_and_dependencies base r.name := by
  intro base rules L
  induction rules with
  | nil => simp
  | cons r rest ih =>
    simp only [List.foldr_cons]
    by_cases hlib : isLibRule r
    · rw [if_pos hlib, ih]
      constructor
      · rintro ⟨q, hq, h1, h2⟩
        exact ⟨q, List.mem_cons_of_mem _ hq, h1, h2⟩
      · rintro ⟨q, hq, h1, h2⟩
        rcases List.mem_cons.1 hq with hq | hq
        · subst hq; rw [hlib] at h1; cases h1
        · exact ⟨q, hq, h1, h2⟩
    · rw [if_neg hlib]
      simp only [List.mem_append]
      rw [ih]
      constructor
      · rintro (h | ⟨q, hq, h1, h2⟩)
        · exact ⟨r, List.mem_cons_self _ _, by simpa using hlib, h⟩
        · exact ⟨q, List.mem_cons_of_mem _ hq, h1, h2⟩
      · rintro ⟨q, hq, h1, h2⟩
        rcases List.mem_cons.1 hq with hq | hq
        · subst hq; exact Or.inl h2
        · exact Or.inr ⟨q, hq, h1, h2⟩

/-- Membership in `_get_rules_for_scope`: a rule is in the scope's list
iff its own scope matches and it lies in the dependency closure of some
non-lib rule. -/
theorem mem_getRulesForScope (rules : List Rule) (scope : String) (L : Rule) :
    L ∈ getRulesForScope rules scope
  ↔ L.scope = scope
    ∧ ∃ r ∈ rules, isLibRule r = false ∧ L ∈ get_rules_and_dependencies rules r.name := by
  rw [getRulesForScope, get_rules_with_scope, List.mem_filter,
    mem_topologicallyOrderRules, scopeRulesUnion, mem_scopeRulesUnion]
  rw [beq_iff_eq]
  exact and_comm

/-- C4: in a constructed RuleSet, a lib rule appears in a scope's ordered
list iff it is in the transitive dependency closure
(`get_rules_and_dependencies`) of some non-lib rule of the collection and
its own scope equals that list's scope. -/
theorem c4_lib_rule_scope_lists :
  ∀ (fuel : Nat) (rules : List Rule) (o : InitOutcome) (d : RuleSetData),
    ruleSetInit fuel rules = some o → o.result = .ok d →
    ∀ L : Rule, isLibRule L = true →
      ((L ∈ d.file_rules ↔ L.scope = "file"
          ∧ ∃ r ∈ o.done, isLibRule r = false ∧ L ∈ get_rules_and_dependencies o.done r.name)
     ∧ (L ∈ d.function_rules ↔ L.scope = "function"
          ∧ ∃ r ∈ o.done, isLibRule r = false ∧ L ∈ get_rules_and_dependencies o.done r.name)
     ∧ (L ∈ d.basic_block_rules ↔ L.scope = "basic block"
          ∧ ∃ r ∈ o.done, isLibRule r = false ∧ L ∈ get_rules_and_dependencies o.done r.name)) := by
  intro fuel rules o d h hres L hlib
  obtain ⟨h1, h2, h3⟩ := ruleSetInit_ok_fields fuel rules o d h hres
  rw [h1, h2, h3]
  exact ⟨mem_getRulesForScope _ _ _, mem_getRulesForScope _ _ _, mem_getRulesForScope _ _ _⟩

/-- C4 witness: the spec's concrete scenario — a file-scope rule `r`
matching a function-scope `lib: true` rule `l`: the file rule is reported
in `file_rules` and the lib rule appears in `function_rules` because it is
a dependency of a reported rule. -/
theorem c4_lib_rule_scope_lists_witness :
    ruleSetInit 10 demoDepRules = some demoDepOutcome
  ∧ demoFileRule ∈ demoDepData.file_rules
  ∧ demoLibRule ∈ demoDepData.function_rules := by
  refine ⟨rfl, List.mem_singleton_self _, ?_⟩
  have h := (c4_lib_rule_scope_lists 10 demoDepRules demoDepOutcome demoDepData rfl rfl
    demoLibRule rfl).2.1
  refine h.mpr ⟨rfl, demoFileRule, List.mem_cons_self _ _, rfl, ?_⟩
  rw [show get_rules_and_dependencies demoDepOutcome.done demoFileRule.name
      = [demoFileRule, demoLibRule] from rfl]
  exact List.mem_cons_of_mem _ (List.mem_singleton_self _)

/-- C10: when no rule of the set has a string-valued metadata entry
containing the tag as a substring, `filter_rules_by_meta` collects
nothing and the rebuilt RuleSet's constructor raises the empty-ruleset
integrity error "no rules selected" rather than returning an empty
RuleSet. -/
theorem c10_filter_no_match_empty_error :
  ∀ (fuel : Nat) (rules : List Rule) (tag : String),
    (∀ r ∈ rules, ruleMetaMatchesTag r tag = false) →
    filterRulesByMeta fuel rules tag
      = some { callerList := [], done := [],
               result := .error (.invalidRuleSet "no rules selected") } := by
  intro fuel rules tag hno
  have aux : ∀ l : List Rule, (∀ r ∈ l, ruleMetaMatchesTag r tag = false) →
      l.foldr (fun r acc => if ruleMetaMatchesTag r tag
        then get_rules_and_dependencies rules r.name ++ acc else acc) [] = [] := by
    intro l hl
    induction l with
    | nil => rfl
    | cons r rest ih =>
      rw [List.foldr_cons, if_neg (by simp [hl r (List.mem_cons_self _ _)]),
        ih (fun x hx => hl x (List.mem_cons_of_mem _ hx))]
  show ruleSetInit fuel (rules.foldr _ []) = _
  rw [aux rules hno]
  cases fuel <;> rfl

/-- C10 witness: `c10_filter_no_match_empty_error` at the two-rule demo
set with a tag matching no metadata string. -/
theorem c10_filter_no_match_empty_error_witness :
    filterRulesByMeta 3 demoDepRules "zzz"
      = some { callerList := [], done := [],
               result := .error (.invalidRuleSet "no rules selected") } :=
  c10_filter_no_match_empty_error 3 demoDepRules "zzz" (by decide)
